import Mathlib

/-!
Verification development for the passkey repository: a shallow embedding of
the in-memory storage (api/src/lib/memory-storage.ts), the passkey service
orchestrator (api/src/lib/passkey-service.ts over the storage interface of
api/src/lib/storage.ts) and the client base64url utilities, together with
theorems settling the specification claims.

Conventions of the embedding:
- JS `Map<string, V>` is modelled as an association list with the JS `Map`
  semantics: `mapSet` updates the first matching entry in place or appends,
  `mapGet` finds the first match, `mapDelete` removes the first match.
  In every state produced by the operations the keys are duplicate-free.
- `Date` values are modelled as natural-number timestamps (milliseconds);
  the current time is threaded explicitly as a `now` parameter wherever the
  source calls `new Date()` / `Date.now()`.
- JS string falsiness (`a || b` where `a` is a string) is modelled by
  `jsOrStr`: the empty string is the falsy case. Optional string parameters
  (`username?`, `userId?`) are modelled as strings with the empty string
  standing for `undefined`; every use in the source only tests their
  truthiness, for which `""` and `undefined` behave identically.
- External collaborators (the WebAuthn library's option generators and
  verifiers, and the `crypto` random source) are opaque: their outputs
  (generated challenge string, minted random user id, verifier verdict and
  extracted credential material, already in base64url string form) are
  explicit parameters of the service operations.
-/

namespace Passkey

/-- Association-list model of a JS Map: update first occurrence or append. -/
def mapSet {α : Type} : List (String × α) → String → α → List (String × α)
  | [], k, v => [(k, v)]
  | (k', v') :: rest, k, v =>
      if k' = k then (k, v) :: rest else (k', v') :: mapSet rest k v

/-- Association-list model of JS Map.get: first occurrence, none if absent. -/
def mapGet {α : Type} : List (String × α) → String → Option α
  | [], _ => none
  | (k', v') :: rest, k => if k' = k then some v' else mapGet rest k

/-- Association-list model of JS Map.delete: remove the first occurrence. -/
def mapDelete {α : Type} : List (String × α) → String → List (String × α)
  | [], _ => []
  | (k', v') :: rest, k => if k' = k then rest else (k', v') :: mapDelete rest k

/-- JS string disjunction `a || b`: the empty string is falsy. -/
def jsOrStr (a b : String) : String := if a = "" then b else a

theorem mapGet_set_self {α : Type} (m : List (String × α)) (k : String) (v : α) :
    mapGet (mapSet m k v) k = some v := by
  induction m with
  | nil => simp [mapSet, mapGet]
  | cons hd tl ih =>
      obtain ⟨k', v'⟩ := hd
      by_cases h : k' = k <;> simp [mapSet, mapGet, h, ih]

theorem mapGet_set_ne {α : Type} (m : List (String × α)) (k k' : String) (v : α)
    (h : k' ≠ k) : mapGet (mapSet m k v) k' = mapGet m k' := by
  have h' : ¬ k = k' := fun hh => h hh.symm
  induction m with
  | nil => simp [mapSet, mapGet, h']
  | cons hd tl ih =>
      obtain ⟨k₀, v₀⟩ := hd
      by_cases h0 : k₀ = k
      · subst h0
        simp [mapSet, mapGet, h']
      · by_cases h1 : k₀ = k' <;> simp [mapSet, mapGet, h0, h1, ih, h]

theorem mapGet_delete_ne {α : Type} (m : List (String × α)) (k k' : String)
    (h : k' ≠ k) : mapGet (mapDelete m k) k' = mapGet m k' := by
  have h' : ¬ k = k' := fun hh => h hh.symm
  induction m with
  | nil => simp [mapDelete, mapGet]
  | cons hd tl ih =>
      obtain ⟨k₀, v₀⟩ := hd
      by_cases h0 : k₀ = k
      · subst h0
        simp [mapDelete, mapGet, h']
      · by_cases h1 : k₀ = k' <;> simp [mapDelete, mapGet, h0, h1, ih, h]

/-- Keys of an association list, for the duplicate-freeness invariant
that every state reached through JS Map operations satisfies. -/
def mapKeys {α : Type} (m : List (String × α)) : List String := m.map Prod.fst

theorem mapGet_eq_none_of_not_mem {α : Type} (m : List (String × α)) (k : String)
    (h : k ∉ mapKeys m) : mapGet m k = none := by
  induction m with
  | nil => simp [mapGet]
  | cons hd tl ih =>
      obtain ⟨k₀, v₀⟩ := hd
      simp only [mapKeys, List.map_cons, List.mem_cons] at h
      push_neg at h
      have h0 : k₀ ≠ k := fun hh => h.1 hh.symm
      exact by simp [mapGet, h0, ih h.2]

theorem mapGet_delete_self {α : Type} (m : List (String × α)) (k : String)
    (hw : (mapKeys m).Nodup) : mapGet (mapDelete m k) k = none := by
  induction m with
  | nil => simp [mapDelete, mapGet]
  | cons hd tl ih =>
      obtain ⟨k₀, v₀⟩ := hd
      simp only [mapKeys, List.map_cons, List.nodup_cons] at hw
      by_cases h0 : k₀ = k
      · subst h0
        simpa [mapDelete] using mapGet_eq_none_of_not_mem tl k₀ hw.1
      · simp [mapDelete, mapGet, h0, ih hw.2]

/-- storage.ts PasskeyCredential: one registered authenticator public key.
Timestamps are naturals (ms); `publicKey` and `id` are the base64url strings
the service stores. -/
structure PasskeyCredential where
  id : String
  publicKey : String
  counter : Nat
  transports : Option (List String)
  createdAt : Nat
deriving DecidableEq, Repr

/-- storage.ts UserPasskey: one registrant with their credential list. -/
structure UserPasskey where
  userId : String
  username : String
  displayName : String
  credentials : List PasskeyCredential
  createdAt : Nat
  updatedAt : Nat
deriving DecidableEq, Repr

/-- storage.ts Challenge: one pending ceremony. -/
structure Challenge where
  challenge : String
  userId : String
  username : String
  createdAt : Nat
  expiresAt : Nat
deriving DecidableEq, Repr

/-- memory-storage.ts MemoryStorage: the four private Maps. -/
structure MemoryStorage where
  users : List (String × UserPasskey)
  credentialIndex : List (String × String)
  challenges : List (String × Challenge)
  challengesByValue : List (String × Challenge)
deriving DecidableEq, Repr

/-- The state of a freshly constructed MemoryStorage. -/
def emptyStorage : MemoryStorage := ⟨[], [], [], []⟩

/-- memory-storage.ts saveUser: users.set(user.username, user), then each
credential id is indexed to the username. -/
def saveUser (s : MemoryStorage) (user : UserPasskey) : MemoryStorage :=
  { s with
    users := mapSet s.users user.username user,
    credentialIndex :=
      user.credentials.foldl (fun idx cred => mapSet idx cred.id user.username)
        s.credentialIndex }

/-- memory-storage.ts getUserByUsername. -/
def getUserByUsername (s : MemoryStorage) (username : String) : Option UserPasskey :=
  mapGet s.users username

/-- memory-storage.ts getUserByCredentialId: looks the username up in the
credential index; the JS truthiness test `if (!username) return null` also
rejects an empty-string username. -/
def getUserByCredentialId (s : MemoryStorage) (credentialId : String) : Option UserPasskey :=
  match mapGet s.credentialIndex credentialId with
  | none => none
  | some username => if username = "" then none else mapGet s.users username

/-- memory-storage.ts addCredential: appends to an existing user's list,
bumps updatedAt, indexes the credential; throws "User not found" when the
username is unknown. Returns the thrown message or unit, paired with the
state as left by the call. -/
def addCredential (s : MemoryStorage) (now : Nat) (username : String)
    (credential : PasskeyCredential) : Except String Unit × MemoryStorage :=
  match mapGet s.users username with
  | none => (.error "User not found", s)
  | some user =>
      let user' := { user with
        credentials := user.credentials ++ [credential],
        updatedAt := now }
      (.ok (), { s with
        users := mapSet s.users username user',
        credentialIndex := mapSet s.credentialIndex credential.id username })

/-- Overwrite the counter of the first credential carrying the given id,
as the in-place mutation through `find` does in the source. -/
def setCounterFirst : List PasskeyCredential → String → Nat → List PasskeyCredential
  | [], _, _ => []
  | c :: rest, credentialId, counter =>
      if c.id = credentialId then { c with counter := counter } :: rest
      else c :: setCounterFirst rest credentialId counter

/-- memory-storage.ts updateCredentialCounter: resolves the owning username
via the index (JS truthiness rejects an empty username as "Credential not
found"), then the user, then the first matching credential, overwrites its
counter and bumps updatedAt. -/
def updateCredentialCounter (s : MemoryStorage) (now : Nat) (credentialId : String)
    (counter : Nat) : Except String Unit × MemoryStorage :=
  match mapGet s.credentialIndex credentialId with
  | none => (.error "Credential not found", s)
  | some username =>
      if username = "" then (.error "Credential not found", s)
      else
        match mapGet s.users username with
        | none => (.error "User not found", s)
        | some user =>
            match user.credentials.find? (fun c => c.id = credentialId) with
            | none => (.error "Credential not found", s)
            | some _ =>
                let user' := { user with
                  credentials := setCounterFirst user.credentials credentialId counter,
                  updatedAt := now }
                (.ok (), { s with users := mapSet s.users username user' })

/-- memory-storage.ts saveChallenge: keyed by
`challenge.username || challenge.challenge` — the challenge value itself
when the username is the empty string — and also indexed by value. -/
def saveChallenge (s : MemoryStorage) (c : Challenge) : MemoryStorage :=
  { s with
    challenges := mapSet s.challenges (jsOrStr c.username c.challenge) c,
    challengesByValue := mapSet s.challengesByValue c.challenge c }

/-- memory-storage.ts getAndDeleteChallenge: single-use lookup by key,
removing the entry from both maps on a hit. -/
def getAndDeleteChallenge (s : MemoryStorage) (username : String) :
    Option Challenge × MemoryStorage :=
  match mapGet s.challenges username with
  | none => (none, s)
  | some c =>
      (some c, { s with
        challenges := mapDelete s.challenges username,
        challengesByValue := mapDelete s.challengesByValue c.challenge })

/-- memory-storage.ts getAndDeleteChallengeByValue: single-use lookup by the
challenge value, removing the by-key entry under
`challenge.username || challengeValue`. -/
def getAndDeleteChallengeByValue (s : MemoryStorage) (challengeValue : String) :
    Option Challenge × MemoryStorage :=
  match mapGet s.challengesByValue challengeValue with
  | none => (none, s)
  | some c =>
      (some c, { s with
        challengesByValue := mapDelete s.challengesByValue challengeValue,
        challenges := mapDelete s.challenges (jsOrStr c.username challengeValue) })

/-- memory-storage.ts cleanupExpiredChallenges: sweeps the by-key map,
removing every entry whose expiresAt is strictly before now, and deletes the
matching by-value entries. -/
def cleanupExpiredChallenges (s : MemoryStorage) (now : Nat) : MemoryStorage :=
  { s with
    challenges := s.challenges.filter (fun kc => ¬ kc.2.expiresAt < now),
    challengesByValue :=
      (s.challenges.filter (fun kc => kc.2.expiresAt < now)).foldl
        (fun m kc => mapDelete m kc.2.challenge) s.challengesByValue }

/-- The claim-relevant parts of the options built by
generateRegistrationOptions: the resolved user id handed to the WebAuthn
library as userID, and the exclusion list derived from existing
credentials (identified here by their stored ids). -/
structure RegOptionsResult where
  userIdToUse : String
  excludeCredentialIds : List String
deriving DecidableEq, Repr

/-- The registrationInfo the external verifier extracts, with credential id
and public key already in the base64url string form the service stores. -/
structure RegInfo where
  credentialID : String
  credentialPublicKey : String
  counter : Nat
deriving DecidableEq, Repr

/-- The external registration verifier's verdict. -/
structure RegVerifierResult where
  verified : Bool
  registrationInfo : Option RegInfo
deriving DecidableEq, Repr

/-- verifyRegistration's return value. -/
structure RegResult where
  verified : Bool
  userId : String
  credentialId : String
deriving DecidableEq, Repr

/-- verifyAuthentication's return value. -/
structure AuthResult where
  verified : Bool
  userId : String
  username : String
deriving DecidableEq, Repr

/-- passkey-service.ts generateRegistrationOptions: resolves
userIdToUse = userId || generateUserId() (the minted random id is the
explicit parameter mintedId; a missing or empty userId argument is falsy),
derives the exclusion list from an existing user, and saves a Challenge
carrying userIdToUse under the username with a 5-minute expiry.
optChallenge is the challenge the external library generated. -/
def svcGenerateRegistrationOptions (s : MemoryStorage) (now : Nat)
    (username _displayName userId mintedId optChallenge : String) :
    RegOptionsResult × MemoryStorage :=
  let userIdToUse := jsOrStr userId mintedId
  let excludeCredentialIds :=
    match getUserByUsername s username with
    | some u => u.credentials.map (fun c => c.id)
    | none => []
  let s' := saveChallenge s
    { challenge := optChallenge, userId := userIdToUse, username := username,
      createdAt := now, expiresAt := now + 5 * 60 * 1000 }
  ({ userIdToUse := userIdToUse, excludeCredentialIds := excludeCredentialIds }, s')

/-- passkey-service.ts verifyRegistration: consumes the challenge keyed by
the username, checks the external verifier's verdict vr, builds the
credential (respTransports is response.response.transports), then appends
via addCredential when the username already has an identity and otherwise
creates a new identity carrying the challenge's userId. Thrown errors are
returned as .error with the thrown message, paired with the state as left
at that point. -/
def svcVerifyRegistration (s : MemoryStorage) (now : Nat) (username : String)
    (vr : RegVerifierResult) (respTransports : Option (List String)) :
    Except String RegResult × MemoryStorage :=
  match getAndDeleteChallenge s username with
  | (none, s₁) => (.error "Challenge not found or expired", s₁)
  | (some challenge, s₁) =>
      match vr.verified, vr.registrationInfo with
      | true, some info =>
          let credential : PasskeyCredential :=
            { id := info.credentialID, publicKey := info.credentialPublicKey,
              counter := info.counter, transports := respTransports, createdAt := now }
          match getUserByUsername s₁ username with
          | some _ =>
              match addCredential s₁ now username credential with
              | (.ok _, s₂) =>
                  (.ok { verified := true, userId := challenge.userId,
                         credentialId := credential.id }, s₂)
              | (.error e, s₂) => (.error e, s₂)
          | none =>
              let s₂ := saveUser s₁
                { userId := challenge.userId, username := username,
                  displayName := username, credentials := [credential],
                  createdAt := now, updatedAt := now }
              (.ok { verified := true, userId := challenge.userId,
                     credentialId := credential.id }, s₂)
      | _, _ => (.error "Registration verification failed", s₁)

/-- passkey-service.ts getAllowCredentials: the ids of the user's
credentials, empty when the username is unknown. -/
def getAllowCredentials (s : MemoryStorage) (username : String) : List String :=
  match getUserByUsername s username with
  | none => []
  | some user => user.credentials.map (fun c => c.id)

/-- passkey-service.ts generateAuthenticationOptions: with a truthy
username builds the allow-list, otherwise leaves it undefined (none);
saves a Challenge with blank userId under username || '' with a 5-minute
expiry. optChallenge is the challenge the external library generated. -/
def svcGenerateAuthenticationOptions (s : MemoryStorage) (now : Nat)
    (username optChallenge : String) : Option (List String) × MemoryStorage :=
  let allowCredentials :=
    if username = "" then none else some (getAllowCredentials s username)
  let s' := saveChallenge s
    { challenge := optChallenge, userId := "", username := jsOrStr username "",
      createdAt := now, expiresAt := now + 5 * 60 * 1000 }
  (allowCredentials, s')

/-- passkey-service.ts verifyAuthentication: consumes the challenge keyed
by username || '', resolves the identity by the response's credential id
(respId), locates the credential in the identity's list, consults the
external verifier (verdict authOk, reported counter newCounter), and
persists the new counter. Thrown errors are returned as .error with the
thrown message, paired with the state as left at that point. -/
def svcVerifyAuthentication (s : MemoryStorage) (now : Nat) (username respId : String)
    (authOk : Bool) (newCounter : Nat) : Except String AuthResult × MemoryStorage :=
  match getAndDeleteChallenge s (jsOrStr username "") with
  | (none, s₁) => (.error "Challenge not found or expired", s₁)
  | (some _, s₁) =>
      match getUserByCredentialId s₁ respId with
      | none => (.error "User not found", s₁)
      | some user =>
          match user.credentials.find? (fun c => c.id = respId) with
          | none => (.error "Credential not found", s₁)
          | some credential =>
              if authOk then
                match updateCredentialCounter s₁ now credential.id newCounter with
                | (.ok _, s₂) =>
                    (.ok { verified := true, userId := user.userId,
                           username := user.username }, s₂)
                | (.error e, s₂) => (.error e, s₂)
              else (.error "Authentication verification failed", s₁)

/-- One call to one of the orchestrator's four operations, with every
external input (current time, minted id, generated challenge, verifier
verdict) made explicit. -/
inductive SvcOp
  | genReg (now : Nat) (username displayName userId mintedId optChallenge : String)
  | verifyReg (now : Nat) (username : String) (vr : RegVerifierResult)
      (respTransports : Option (List String))
  | genAuth (now : Nat) (username optChallenge : String)
  | verifyAuth (now : Nat) (username respId : String) (authOk : Bool) (newCounter : Nat)

/-- The state transition of one orchestrator call (results discarded). -/
def SvcOp.apply (s : MemoryStorage) : SvcOp → MemoryStorage
  | .genReg now un dn uid mid ch => (svcGenerateRegistrationOptions s now un dn uid mid ch).2
  | .verifyReg now un vr tr => (svcVerifyRegistration s now un vr tr).2
  | .genAuth now un ch => (svcGenerateAuthenticationOptions s now un ch).2
  | .verifyAuth now un rid ok ctr => (svcVerifyAuthentication s now un rid ok ctr).2

/-- The state after a sequence of orchestrator calls. -/
def applyOps (s : MemoryStorage) (ops : List SvcOp) : MemoryStorage :=
  List.foldl SvcOp.apply s ops

/-- The standard base64 alphabet as character codes: index 0..63 to the
code of A..Z, a..z, 0..9, plus (43), slash (47). -/
def b64Char (n : Nat) : Nat :=
  if n < 26 then 65 + n
  else if n < 52 then 97 + (n - 26)
  else if n < 62 then 48 + (n - 52)
  else if n = 62 then 43
  else 47

/-- The inverse alphabet: character code back to the 6-bit index. -/
def b64Index (c : Nat) : Nat :=
  if 65 ≤ c ∧ c ≤ 90 then c - 65
  else if 97 ≤ c ∧ c ≤ 122 then c - 97 + 26
  else if 48 ≤ c ∧ c ≤ 57 then c - 48 + 52
  else if c = 43 then 62
  else if c = 47 then 63
  else 0

/-- The platform btoa on a binary string, modelled on lists of character
codes (the source builds the binary string with String.fromCharCode over
the buffer's bytes): standard base64 with '=' (61) padding. -/
def btoa : List Nat → List Nat
  | [] => []
  | [b1] => [b64Char (b1 / 4), b64Char (b1 % 4 * 16), 61, 61]
  | [b1, b2] =>
      [b64Char (b1 / 4), b64Char (b1 % 4 * 16 + b2 / 16), b64Char (b2 % 16 * 4), 61]
  | b1 :: b2 :: b3 :: rest =>
      b64Char (b1 / 4) :: b64Char (b1 % 4 * 16 + b2 / 16) ::
      b64Char (b2 % 16 * 4 + b3 / 64) :: b64Char (b3 % 64) :: btoa rest

/-- The platform atob on well-formed base64: each 4-character group yields
3 bytes, a group padded with '=' (61) in third or fourth position yields 1
or 2 bytes and ends the input. -/
def atob : List Nat → List Nat
  | c1 :: c2 :: c3 :: c4 :: rest =>
      if c3 = 61 then [b64Index c1 * 4 + b64Index c2 / 16]
      else if c4 = 61 then
        [b64Index c1 * 4 + b64Index c2 / 16,
         b64Index c2 % 16 * 16 + b64Index c3 / 4]
      else
        (b64Index c1 * 4 + b64Index c2 / 16) ::
        (b64Index c2 % 16 * 16 + b64Index c3 / 4) ::
        (b64Index c3 % 4 * 64 + b64Index c4) :: atob rest
  | _ => []

/-- The chained replaces of arrayBufferToBase64Url on one character:
plus (43) to minus (45), slash (47) to underscore (95). -/
def toUrlChar (c : Nat) : Nat := if c = 43 then 45 else if c = 47 then 95 else c

/-- The chained replaces of base64UrlToArrayBuffer on one character:
minus (45) to plus (43), underscore (95) to slash (47). -/
def fromUrlChar (c : Nat) : Nat := if c = 45 then 43 else if c = 95 then 47 else c

/-- utils.ts arrayBufferToBase64Url: btoa of the buffer's bytes, then the
url-safe character replacements, then every '=' removed. -/
def arrayBufferToBase64Url (buffer : List Nat) : List Nat :=
  ((btoa buffer).map toUrlChar).filter (fun c => c ≠ 61)

/-- utils.ts base64UrlToArrayBuffer: the inverse character replacements,
'=' padding restored to a multiple of four, then atob. -/
def base64UrlToArrayBuffer (base64url : List Nat) : List Nat :=
  let base64 := base64url.map fromUrlChar
  let padding := List.replicate ((4 - base64.length % 4) % 4) 61
  atob (base64 ++ padding)

/-- The stored counter of a credential, read back the way
verifyAuthentication reads it: identity via the credential index, then the
first credential with the given id. -/
def credCounter (s : MemoryStorage) (cid : String) : Option Nat :=
  (getUserByCredentialId s cid).bind
    (fun u => (u.credentials.find? (fun c => c.id = cid)).map (fun c => c.counter))

/-- The cross-user index is consistent with the per-user credential lists:
every indexed credential id leads to a stored identity whose list contains
a credential with that id. -/
def IndexConsistent (s : MemoryStorage) : Prop :=
  ∀ cid un, mapGet s.credentialIndex cid = some un →
    ∃ u, mapGet s.users un = some u ∧ ∃ c ∈ u.credentials, c.id = cid

/-! Concrete scenario values used by the claim theorems and witnesses. -/

/-- Registration info for credential cid1. -/
def bRegInfo : RegInfo :=
  { credentialID := "cid1", credentialPublicKey := "pk1", counter := 0 }

/-- A successful registration verdict carrying credential cid1. -/
def bRegVerdict : RegVerifierResult :=
  { verified := true, registrationInfo := some bRegInfo }

/-- State after registering credential cid1 under username b@x.com. -/
def bRegistered : MemoryStorage :=
  applyOps emptyStorage
    [SvcOp.genReg 0 "b@x.com" "B" "" "uidB" "CH0",
     SvcOp.verifyReg 1 "b@x.com" bRegVerdict (some ["internal"])]

/-- State after additionally generating discoverable (usernameless)
authentication options with generated challenge CH1. -/
def bAuthIssued : MemoryStorage :=
  (svcGenerateAuthenticationOptions bRegistered 2 "" "CH1").2

/-- A challenge issued with no username, as the discoverable flow saves. -/
def anonChallenge : Challenge :=
  { challenge := "c1", userId := "", username := "", createdAt := 0, expiresAt := 300000 }

/-- A challenge issued under username u9. -/
def uChal : Challenge :=
  { challenge := "CU", userId := "x", username := "u9", createdAt := 0, expiresAt := 300000 }

/-- State holding only uChal. -/
def uState : MemoryStorage := saveChallenge emptyStorage uChal

/-- Verdicts for two registrations of distinct credentials. -/
def aInfo1 : RegInfo :=
  { credentialID := "cidA1", credentialPublicKey := "pkA1", counter := 0 }

/-- Verdict carrying aInfo1. -/
def aVerdict1 : RegVerifierResult :=
  { verified := true, registrationInfo := some aInfo1 }

/-- Second-credential verdict for the same username. -/
def aInfo2 : RegInfo :=
  { credentialID := "cidA2", credentialPublicKey := "pkA2", counter := 0 }

/-- Verdict carrying aInfo2. -/
def aVerdict2 : RegVerifierResult :=
  { verified := true, registrationInfo := some aInfo2 }

/-- Registration options issued for a brand-new username a@x.com with no
caller-supplied userId; the service mints r1. -/
def aIssued1 : MemoryStorage :=
  (svcGenerateRegistrationOptions emptyStorage 0 "a@x.com" "A" "" "r1" "CH1").2

/-- First registration verified. -/
def aFirstReg : Except String RegResult × MemoryStorage :=
  svcVerifyRegistration aIssued1 1 "a@x.com" aVerdict1 none

/-- Second registration options for the now-registered username a@x.com,
again with no caller-supplied userId; the service mints r2. -/
def aIssued2 : MemoryStorage :=
  (svcGenerateRegistrationOptions aFirstReg.2 2 "a@x.com" "A" "" "r2" "CH2").2

/-- Second registration verified. -/
def aSecondReg : Except String RegResult × MemoryStorage :=
  svcVerifyRegistration aIssued2 3 "a@x.com" aVerdict2 none

/-- A credential whose stored counter is 9. -/
def counterCred : PasskeyCredential :=
  { id := "cidC", publicKey := "pkC", counter := 9, transports := none, createdAt := 0 }

/-- The identity owning counterCred. -/
def counterUser : UserPasskey :=
  { userId := "uC", username := "carol", displayName := "Carol",
    credentials := [counterCred], createdAt := 0, updatedAt := 0 }

/-- State holding counterUser. -/
def counterState : MemoryStorage := saveUser emptyStorage counterUser

/-- First challenge saved under key u. -/
def chalA : Challenge :=
  { challenge := "A", userId := "u1", username := "u", createdAt := 0, expiresAt := 300000 }

/-- Second challenge saved under the same key u, replacing chalA there. -/
def chalB : Challenge :=
  { challenge := "B", userId := "u1", username := "u", createdAt := 1, expiresAt := 300001 }

/-- Registration info extracted by the verifier for the C7 witness. -/
def wInfo : RegInfo :=
  { credentialID := "cidW", credentialPublicKey := "pkW", counter := 7 }

/-- Successful verdict carrying wInfo. -/
def wVerdict : RegVerifierResult := { verified := true, registrationInfo := some wInfo }

/-- Registration challenge recorded with userId uidW for w@x.com. -/
def wChal : Challenge :=
  { challenge := "CW", userId := "uidW", username := "w@x.com", createdAt := 0, expiresAt := 300000 }

/-- State holding only wChal. -/
def wState : MemoryStorage := saveChallenge emptyStorage wChal

/-- Verdict for the reachable-state witness registration. -/
def eInfo : RegInfo :=
  { credentialID := "cid8", credentialPublicKey := "pk8", counter := 0 }

/-- Verdict carrying eInfo. -/
def eVerdict : RegVerifierResult :=
  { verified := true, registrationInfo := some eInfo }

/-- An orchestrator call sequence registering credential cid8. -/
def eOps : List SvcOp :=
  [SvcOp.genReg 0 "c8@x.com" "C8" "" "uid8" "CH8",
   SvcOp.verifyReg 1 "c8@x.com" eVerdict none]

/-- The identity that sequence creates. -/
def eUser : UserPasskey :=
  { userId := "uid8", username := "c8@x.com", displayName := "c8@x.com",
    credentials := [{ id := "cid8", publicKey := "pk8", counter := 0,
                      transports := none, createdAt := 1 }],
    createdAt := 1, updatedAt := 1 }

/-- A challenge under key p expiring at 100. -/
def pChal : Challenge :=
  { challenge := "CP", userId := "", username := "p", createdAt := 0, expiresAt := 100 }

/-- A challenge under key q expiring at 200. -/
def qChal : Challenge :=
  { challenge := "CQ", userId := "", username := "q", createdAt := 0, expiresAt := 200 }

/-- State holding pChal and qChal. -/
def pqState : MemoryStorage := saveChallenge (saveChallenge emptyStorage pChal) qChal

end Passkey

deriving instance DecidableEq for Except

namespace Passkey

theorem jsOrStr_empty_right (u : String) : jsOrStr u "" = u := by
  by_cases h : u = "" <;> simp [jsOrStr, h]

theorem setCounterFirst_find (creds : List PasskeyCredential) (cid : String) (ctr : Nat)
    (c0 : PasskeyCredential) (h : creds.find? (fun c => c.id = cid) = some c0) :
    (setCounterFirst creds cid ctr).find? (fun c => c.id = cid) =
      some { c0 with counter := ctr } := by
  induction creds with
  | nil => simp [List.find?] at h
  | cons c rest ih =>
      by_cases hc : c.id = cid
      · rw [List.find?_cons_of_pos _ (by simpa using hc)] at h
        obtain rfl : c = c0 := by injection h
        simp [setCounterFirst, hc, List.find?_cons_of_pos]
      · rw [List.find?_cons_of_neg _ (by simpa using hc)] at h
        simp [setCounterFirst, hc, List.find?_cons_of_neg, ih h]

theorem setCounterFirst_mem_id (creds : List PasskeyCredential) (cid0 : String)
    (ctr : Nat) (cid : String) (h : ∃ c ∈ creds, c.id = cid) :
    ∃ c ∈ setCounterFirst creds cid0 ctr, c.id = cid := by
  induction creds with
  | nil => simp at h
  | cons c rest ih =>
      obtain ⟨c', hc', hid⟩ := h
      rcases List.mem_cons.mp hc' with rfl | htail
      · by_cases hc0 : c'.id = cid0
        · exact ⟨{ c' with counter := ctr }, by simp [setCounterFirst, hc0], hid⟩
        · exact ⟨c', by simp [setCounterFirst, hc0], hid⟩
      · by_cases hc0 : c.id = cid0
        · exact ⟨c', by simp [setCounterFirst, hc0, htail], hid⟩
        · obtain ⟨c'', hc'', hid''⟩ := ih ⟨c', htail, hid⟩
          exact ⟨c'', by simp [setCounterFirst, hc0, hc''], hid''⟩

theorem IndexConsistent.empty : IndexConsistent emptyStorage := by
  intro cid un hmg
  simp [emptyStorage, mapGet] at hmg

theorem IndexConsistent.saveUser_single (s : MemoryStorage) (user : UserPasskey)
    (cred : PasskeyCredential) (hc : user.credentials = [cred])
    (hinv : IndexConsistent s) (hnone : mapGet s.users user.username = none) :
    IndexConsistent (saveUser s user) := by
  intro cid un hmg
  have hidx : (saveUser s user).credentialIndex
      = mapSet s.credentialIndex cred.id user.username := by
    simp [saveUser, hc]
  have husers : (saveUser s user).users = mapSet s.users user.username user := rfl
  rw [hidx] at hmg
  rw [husers]
  by_cases hcid : cid = cred.id
  · subst hcid
    rw [mapGet_set_self] at hmg
    obtain rfl : un = user.username := by injection hmg with hh; exact hh.symm
    exact ⟨user, mapGet_set_self _ _ _, cred, by rw [hc]; simp, rfl⟩
  · rw [mapGet_set_ne _ _ _ _ hcid] at hmg
    obtain ⟨u, hu, c, hcmem, hcid'⟩ := hinv cid un hmg
    have hne : un ≠ user.username := by
      intro he
      rw [he, hnone] at hu
      exact absurd hu (by simp)
    exact ⟨u, by rw [mapGet_set_ne _ _ _ _ hne]; exact hu, c, hcmem, hcid'⟩

theorem IndexConsistent.addCred (s : MemoryStorage) (now : Nat) (username : String)
    (cred : PasskeyCredential) (hinv : IndexConsistent s) :
    IndexConsistent (addCredential s now username cred).2 := by
  unfold addCredential
  cases huser : mapGet s.users username with
  | none => exact hinv
  | some user =>
      simp only [huser]
      intro cid un hmg
      simp only at hmg ⊢
      by_cases hcid : cid = cred.id
      · subst hcid
        rw [mapGet_set_self] at hmg
        obtain rfl : un = username := by injection hmg with hh; exact hh.symm
        exact ⟨_, mapGet_set_self _ _ _, cred, by simp, rfl⟩
      · rw [mapGet_set_ne _ _ _ _ hcid] at hmg
        obtain ⟨u, hu, c, hcmem, hcid'⟩ := hinv cid un hmg
        by_cases hun : un = username
        · subst hun
          obtain rfl : u = user := by
            rw [huser] at hu
            injection hu with hh
            exact hh.symm
          exact ⟨_, mapGet_set_self _ _ _, c, by simp [hcmem], hcid'⟩
        · exact ⟨u, by rw [mapGet_set_ne _ _ _ _ hun]; exact hu, c, hcmem, hcid'⟩

theorem IndexConsistent.updateCounter (s : MemoryStorage) (now : Nat) (cid0 : String)
    (ctr : Nat) (hinv : IndexConsistent s) :
    IndexConsistent (updateCredentialCounter s now cid0 ctr).2 := by
  unfold updateCredentialCounter
  cases hidx : mapGet s.credentialIndex cid0 with
  | none => exact hinv
  | some un0 =>
      simp only [hidx]
      by_cases hun0 : un0 = ""
      · simp only [if_pos hun0]
        exact hinv
      · simp only [if_neg hun0]
        cases huser : mapGet s.users un0 with
        | none => exact hinv
        | some user =>
            simp only [huser]
            cases hfind : user.credentials.find? (fun c => c.id = cid0) with
            | none => exact hinv
            | some c0 =>
                simp only [hfind]
                intro cid un hmg
                simp only at hmg ⊢
                obtain ⟨u, hu, c, hcmem, hcid'⟩ := hinv cid un hmg
                by_cases hun : un = un0
                · subst hun
                  obtain rfl : u = user := by
                    rw [huser] at hu
                    injection hu with hh
                    exact hh.symm
                  exact ⟨_, mapGet_set_self _ _ _,
                    setCounterFirst_mem_id u.credentials cid0 ctr cid ⟨c, hcmem, hcid'⟩⟩
                · exact ⟨u, by rw [mapGet_set_ne _ _ _ _ hun]; exact hu, c, hcmem, hcid'⟩

theorem IndexConsistent.step (s : MemoryStorage) (op : SvcOp)
    (hinv : IndexConsistent s) : IndexConsistent (SvcOp.apply s op) := by
  cases op with
  | genReg now un dn uid mid ch => exact hinv
  | genAuth now un ch => exact hinv
  | verifyReg now un vr tr =>
      unfold SvcOp.apply svcVerifyRegistration
      cases hget : mapGet s.challenges un with
      | none => simp only [getAndDeleteChallenge, hget]; exact hinv
      | some ch₀ =>
          simp only [getAndDeleteChallenge, hget]
          obtain ⟨v, ri⟩ := vr
          cases v with
          | false => cases ri <;> exact hinv
          | true =>
              cases ri with
              | none => exact hinv
              | some info =>
                  cases huser : mapGet s.users un with
                  | some u2 =>
                      have hu2 : getUserByUsername
                          { s with challenges := mapDelete s.challenges un,
                                   challengesByValue :=
                                     mapDelete s.challengesByValue ch₀.challenge } un
                          = some u2 := huser
                      simp only [hu2]
                      rcases haddc : addCredential
                          { s with challenges := mapDelete s.challenges un,
                                   challengesByValue :=
                                     mapDelete s.challengesByValue ch₀.challenge }
                          now un
                          { id := info.credentialID, publicKey := info.credentialPublicKey,
                            counter := info.counter, transports := tr, createdAt := now }
                          with ⟨r, s₂⟩
                      have hs₂ := IndexConsistent.addCred
                        { s with challenges := mapDelete s.challenges un,
                                 challengesByValue :=
                                   mapDelete s.challengesByValue ch₀.challenge }
                        now un
                        { id := info.credentialID, publicKey := info.credentialPublicKey,
                          counter := info.counter, transports := tr, createdAt := now }
                        hinv
                      rw [haddc] at hs₂
                      cases r <;> exact hs₂
                  | none =>
                      have hu0 : getUserByUsername
                          { s with challenges := mapDelete s.challenges un,
                                   challengesByValue :=
                                     mapDelete s.challengesByValue ch₀.challenge } un
                          = none := huser
                      simp only [hu0]
                      exact IndexConsistent.saveUser_single _ _ _ rfl hinv huser
  | verifyAuth now un rid ok ctr =>
      unfold SvcOp.apply svcVerifyAuthentication
      cases hget : mapGet s.challenges (jsOrStr un "") with
      | none => simp only [getAndDeleteChallenge, hget]; exact hinv
      | some ch₀ =>
          simp only [getAndDeleteChallenge, hget]
          cases hguc : getUserByCredentialId
              { s with challenges := mapDelete s.challenges (jsOrStr un ""),
                       challengesByValue :=
                         mapDelete s.challengesByValue ch₀.challenge } rid with
          | none => simp only [hguc]; exact hinv
          | some user =>
              simp only [hguc]
              cases hfind : user.credentials.find? (fun c => c.id = rid) with
              | none => simp only [hfind]; exact hinv
              | some credential =>
                  simp only [hfind]
                  cases ok with
                  | false => exact hinv
                  | true =>
                      simp only [if_pos]
                      rcases hupd : updateCredentialCounter
                          { s with challenges := mapDelete s.challenges (jsOrStr un ""),
                                   challengesByValue :=
                                     mapDelete s.challengesByValue ch₀.challenge }
                          now credential.id ctr with ⟨r, s₂⟩
                      have hs₂ := IndexConsistent.updateCounter
                        { s with challenges := mapDelete s.challenges (jsOrStr un ""),
                                 challengesByValue :=
                                   mapDelete s.challengesByValue ch₀.challenge }
                        now credential.id ctr hinv
                      rw [hupd] at hs₂
                      cases r <;> exact hs₂

theorem IndexConsistent.reachable (ops : List SvcOp) :
    IndexConsistent (applyOps emptyStorage ops) := by
  suffices h : ∀ s, IndexConsistent s → IndexConsistent (List.foldl SvcOp.apply s ops) by
    exact h emptyStorage IndexConsistent.empty
  induction ops with
  | nil => intro s hs; exact hs
  | cons op rest ih =>
      intro s hs
      simpa [List.foldl] using ih (SvcOp.apply s op) (IndexConsistent.step s op hs)

theorem b64Char_inv : ∀ n, n < 64 →
    b64Index (fromUrlChar (toUrlChar (b64Char n))) = n ∧
    b64Char n ≠ 61 ∧ toUrlChar (b64Char n) ≠ 61 := by
  decide

theorem filter_ne61_cons_of_ne (a : Nat) (l : List Nat) (h : a ≠ 61) :
    (a :: l).filter (fun c => c ≠ 61) = a :: l.filter (fun c => c ≠ 61) := by
  simp [List.filter_cons, h]

theorem filter_ne61_cons_61 (l : List Nat) :
    ((61 : Nat) :: l).filter (fun c => c ≠ 61) = l.filter (fun c => c ≠ 61) := by
  simp [List.filter_cons]

theorem fromUrlChar_ne61 (c : Nat) (h : c ≠ 61) : fromUrlChar c ≠ 61 := by
  by_cases h45 : c = 45
  · simp [fromUrlChar, h45]
  · by_cases h95 : c = 95
    · simp [fromUrlChar, h45, h95]
    · simpa [fromUrlChar, h45, h95] using h

theorem encode_cons3 (b1 b2 b3 : Nat) (rest : List Nat) :
    arrayBufferToBase64Url (b1 :: b2 :: b3 :: rest) =
      (([b64Char (b1 / 4), b64Char (b1 % 4 * 16 + b2 / 16),
         b64Char (b2 % 16 * 4 + b3 / 64), b64Char (b3 % 64)].map toUrlChar).filter
        (fun c => c ≠ 61)) ++ arrayBufferToBase64Url rest := by
  unfold arrayBufferToBase64Url
  rw [show btoa (b1 :: b2 :: b3 :: rest)
      = [b64Char (b1 / 4), b64Char (b1 % 4 * 16 + b2 / 16),
         b64Char (b2 % 16 * 4 + b3 / 64), b64Char (b3 % 64)] ++ btoa rest from rfl,
      List.map_append, List.filter_append]

theorem decode_cons4 (c1 c2 c3 c4 : Nat) (s : List Nat)
    (h3 : c3 ≠ 61) (h4 : c4 ≠ 61) :
    base64UrlToArrayBuffer (c1 :: c2 :: c3 :: c4 :: s) =
      (b64Index (fromUrlChar c1) * 4 + b64Index (fromUrlChar c2) / 16) ::
      (b64Index (fromUrlChar c2) % 16 * 16 + b64Index (fromUrlChar c3) / 4) ::
      (b64Index (fromUrlChar c3) % 4 * 64 + b64Index (fromUrlChar c4)) ::
      base64UrlToArrayBuffer s := by
  have hf3 := fromUrlChar_ne61 c3 h3
  have hf4 := fromUrlChar_ne61 c4 h4
  unfold base64UrlToArrayBuffer
  simp only [List.map_cons, List.length_cons, List.length_map]
  have hmod : (s.length + 1 + 1 + 1 + 1) % 4 = s.length % 4 := by omega
  rw [hmod]
  simp [atob, hf3, hf4]

/-- C10: decoding inverts encoding — for every byte list, running
base64UrlToArrayBuffer on the arrayBufferToBase64Url output restores the
original bytes. -/
theorem base64url_round_trip : ∀ (b : List Nat), (∀ x ∈ b, x < 256) →
    base64UrlToArrayBuffer (arrayBufferToBase64Url b) = b := by
  intro b
  induction b using btoa.induct with
  | case1 =>
      intro _
      rfl
  | case2 b1 =>
      intro hb
      have h1 : b1 < 256 := hb b1 (by simp)
      have hs1 : b1 / 4 < 64 := by omega
      have hs2 : b1 % 4 * 16 < 64 := by omega
      have e1 := (b64Char_inv _ hs1).1
      have e2 := (b64Char_inv _ hs2).1
      have n1 := (b64Char_inv _ hs1).2.2
      have n2 := (b64Char_inv _ hs2).2.2
      unfold arrayBufferToBase64Url
      rw [show btoa [b1] = [b64Char (b1 / 4), b64Char (b1 % 4 * 16), 61, 61] from rfl]
      simp only [List.map_cons, List.map_nil]
      rw [show toUrlChar 61 = 61 from rfl]
      rw [filter_ne61_cons_of_ne _ _ n1, filter_ne61_cons_of_ne _ _ n2,
          filter_ne61_cons_61, filter_ne61_cons_61, List.filter_nil]
      unfold base64UrlToArrayBuffer
      simp only [List.map_cons, List.map_nil, List.length_cons, List.length_nil]
      rw [show ((4 - (0 + 1 + 1) % 4) % 4) = 2 from rfl]
      rw [show List.replicate 2 61 = [61, 61] from rfl]
      simp only [List.cons_append, List.nil_append]
      rw [show atob [fromUrlChar (toUrlChar (b64Char (b1 / 4))),
            fromUrlChar (toUrlChar (b64Char (b1 % 4 * 16))), 61, 61]
          = [b64Index (fromUrlChar (toUrlChar (b64Char (b1 / 4)))) * 4 +
             b64Index (fromUrlChar (toUrlChar (b64Char (b1 % 4 * 16)))) / 16] from by
        simp [atob]]
      rw [e1, e2]
      have : b1 / 4 * 4 + b1 % 4 * 16 / 16 = b1 := by omega
      rw [this]
  | case3 b1 b2 =>
      intro hb
      have h1 : b1 < 256 := hb b1 (by simp)
      have h2 : b2 < 256 := hb b2 (by simp)
      have hs1 : b1 / 4 < 64 := by omega
      have hs2 : b1 % 4 * 16 + b2 / 16 < 64 := by omega
      have hs3 : b2 % 16 * 4 < 64 := by omega
      have e1 := (b64Char_inv _ hs1).1
      have e2 := (b64Char_inv _ hs2).1
      have e3 := (b64Char_inv _ hs3).1
      have n1 := (b64Char_inv _ hs1).2.2
      have n2 := (b64Char_inv _ hs2).2.2
      have n3 := (b64Char_inv _ hs3).2.2
      have nf3 := fromUrlChar_ne61 _ n3
      unfold arrayBufferToBase64Url
      rw [show btoa [b1, b2] = [b64Char (b1 / 4), b64Char (b1 % 4 * 16 + b2 / 16),
            b64Char (b2 % 16 * 4), 61] from rfl]
      simp only [List.map_cons, List.map_nil]
      rw [show toUrlChar 61 = 61 from rfl]
      rw [filter_ne61_cons_of_ne _ _ n1, filter_ne61_cons_of_ne _ _ n2,
          filter_ne61_cons_of_ne _ _ n3, filter_ne61_cons_61, List.filter_nil]
      unfold base64UrlToArrayBuffer
      simp only [List.map_cons, List.map_nil, List.length_cons, List.length_nil]
      rw [show ((4 - (0 + 1 + 1 + 1) % 4) % 4) = 1 from rfl]
      rw [show List.replicate 1 61 = [61] from rfl]
      simp only [List.cons_append, List.nil_append]
      rw [show ∀ x1 x2 x3, x3 ≠ 61 → atob [x1, x2, x3, 61]
          = [b64Index x1 * 4 + b64Index x2 / 16,
             b64Index x2 % 16 * 16 + b64Index x3 / 4] from by
        intro x1 x2 x3 hx3
        simp [atob, hx3]]
      · rw [e1, e2, e3]
        have hb1 : b1 / 4 * 4 + (b1 % 4 * 16 + b2 / 16) / 16 = b1 := by omega
        have hb2 : (b1 % 4 * 16 + b2 / 16) % 16 * 16 + b2 % 16 * 4 / 4 = b2 := by omega
        rw [hb1, hb2]
      · exact nf3
  | case4 b1 b2 b3 rest ih =>
      intro hb
      have h1 : b1 < 256 := hb b1 (by simp)
      have h2 : b2 < 256 := hb b2 (by simp)
      have h3 : b3 < 256 := hb b3 (by simp)
      have hrest : ∀ x ∈ rest, x < 256 := fun x hx => hb x (by simp [hx])
      have hs1 : b1 / 4 < 64 := by omega
      have hs2 : b1 % 4 * 16 + b2 / 16 < 64 := by omega
      have hs3 : b2 % 16 * 4 + b3 / 64 < 64 := by omega
      have hs4 : b3 % 64 < 64 := by omega
      have n1 := (b64Char_inv _ hs1).2.2
      have n2 := (b64Char_inv _ hs2).2.2
      have n3 := (b64Char_inv _ hs3).2.2
      have n4 := (b64Char_inv _ hs4).2.2
      rw [encode_cons3 b1 b2 b3 rest]
      rw [show (([b64Char (b1 / 4), b64Char (b1 % 4 * 16 + b2 / 16),
            b64Char (b2 % 16 * 4 + b3 / 64), b64Char (b3 % 64)].map toUrlChar).filter
            (fun c => c ≠ 61))
          = [toUrlChar (b64Char (b1 / 4)), toUrlChar (b64Char (b1 % 4 * 16 + b2 / 16)),
             toUrlChar (b64Char (b2 % 16 * 4 + b3 / 64)), toUrlChar (b64Char (b3 % 64))] from by
        simp only [List.map_cons, List.map_nil]
        rw [filter_ne61_cons_of_ne _ _ n1, filter_ne61_cons_of_ne _ _ n2,
            filter_ne61_cons_of_ne _ _ n3, filter_ne61_cons_of_ne _ _ n4, List.filter_nil]]
      simp only [List.cons_append, List.nil_append]
      rw [decode_cons4 _ _ _ _ _ n3 n4]
      rw [(b64Char_inv _ hs1).1, (b64Char_inv _ hs2).1, (b64Char_inv _ hs3).1,
        (b64Char_inv _ hs4).1]
      have hb1 : b1 / 4 * 4 + (b1 % 4 * 16 + b2 / 16) / 16 = b1 := by omega
      have hb2 : (b1 % 4 * 16 + b2 / 16) % 16 * 16 + (b2 % 16 * 4 + b3 / 64) / 4 = b2 := by
        omega
      have hb3 : (b2 % 16 * 4 + b3 / 64) % 4 * 64 + b3 % 64 = b3 := by omega
      rw [hb1, hb2, hb3, ih hrest]

/-- C10 witness: the round trip at a concrete byte list exercising all
three tail shapes of the encoder. -/
theorem base64url_round_trip_witness :
    (∀ x ∈ ([0, 77, 255, 254, 32] : List Nat), x < 256) ∧
    base64UrlToArrayBuffer (arrayBufferToBase64Url ([0, 77, 255, 254, 32] : List Nat)) =
      [0, 77, 255, 254, 32] :=
  ⟨by decide, base64url_round_trip [0, 77, 255, 254, 32] (by decide)⟩

/-- C8: over the bundled in-memory store, in every state reachable by a
sequence of the orchestrator's four operations, a successful
getUserByCredentialId yields an identity whose credential list contains a
credential with the looked-up id, so verifyAuthentication's defensive
credential-not-found branch cannot fire. -/
theorem credential_lookup_consistent (ops : List SvcOp) (cid : String) (u : UserPasskey)
    (h : getUserByCredentialId (applyOps emptyStorage ops) cid = some u) :
    (∃ c ∈ u.credentials, c.id = cid) ∧
    (u.credentials.find? (fun c => c.id = cid)).isSome = true := by
  have hinv := IndexConsistent.reachable ops
  unfold getUserByCredentialId at h
  cases hidx : mapGet (applyOps emptyStorage ops).credentialIndex cid with
  | none => simp only [hidx] at h; exact absurd h (by simp)
  | some un =>
      simp only [hidx] at h
      by_cases hun : un = ""
      · simp [hun] at h
      · rw [if_neg hun] at h
        obtain ⟨u', hu', c, hcmem, hcid⟩ := hinv cid un hidx
        rw [h] at hu'
        obtain rfl : u = u' := Option.some.inj hu'
        refine ⟨⟨c, hcmem, hcid⟩, ?_⟩
        rw [List.find?_isSome]
        exact ⟨c, hcmem, by simp [hcid]⟩

/-- C8 witness: the reachable state after registering credential cid8. -/
theorem credential_lookup_consistent_witness :
    getUserByCredentialId (applyOps emptyStorage eOps) "cid8" = some eUser ∧
    (∃ c ∈ eUser.credentials, c.id = "cid8") :=
  ⟨by decide, (credential_lookup_consistent eOps "cid8" eUser (by decide)).1⟩

/-- C1: in the discoverable round trip the code saves the authentication
challenge under the challenge value itself (because the empty username is
falsy in the JS key expression), not under the empty-string key that
verifyAuthentication then queries, so verification fails with the
challenge-not-found error instead of returning the registered identity:
with credential cid1 registered under b@x.com and discoverable options
issued, usernameless verification with a succeeding verifier errors. -/
theorem discoverable_auth_round_trip_fails :
    getUserByCredentialId bAuthIssued "cid1" =
      some { userId := "uidB", username := "b@x.com", displayName := "b@x.com",
             credentials := [{ id := "cid1", publicKey := "pk1", counter := 0,
                               transports := some ["internal"], createdAt := 1 }],
             createdAt := 1, updatedAt := 1 } ∧
    mapGet bAuthIssued.challenges "CH1" =
      some { challenge := "CH1", userId := "", username := "",
             createdAt := 2, expiresAt := 300002 } ∧
    mapGet bAuthIssued.challenges "" = none ∧
    (svcVerifyAuthentication bAuthIssued 3 "" "cid1" true 5).1 =
      .error "Challenge not found or expired" := by
  decide

/-- C2 counterexample: a challenge whose username is empty is not stored
under the empty-string key — a subsequent getAndDeleteChallenge "" does not
return it, contrary to the claim. -/
theorem saveChallenge_empty_key_counterexample :
    ¬ (getAndDeleteChallenge (saveChallenge emptyStorage anonChallenge) "").1 =
        some anonChallenge := by
  decide

/-- C2 (amended): saveChallenge stores the record under the key
challenge.username when that is nonempty and under the challenge value when
the username is empty; hence a challenge saved with an empty username is
retrieved by getAndDeleteChallengeByValue on its value, not by
getAndDeleteChallenge "". -/
theorem saveChallenge_key_spec (s : MemoryStorage) (c : Challenge) :
    mapGet (saveChallenge s c).challenges (jsOrStr c.username c.challenge) = some c ∧
    (c.username ≠ "" →
      (getAndDeleteChallenge (saveChallenge s c) c.username).1 = some c) ∧
    (c.username = "" →
      (getAndDeleteChallengeByValue (saveChallenge s c) c.challenge).1 = some c) := by
  refine ⟨?_, ?_, ?_⟩
  · exact mapGet_set_self _ _ _
  · intro hne
    have hkey : jsOrStr c.username c.challenge = c.username := by simp [jsOrStr, hne]
    unfold getAndDeleteChallenge
    rw [show (saveChallenge s c).challenges
          = mapSet s.challenges (jsOrStr c.username c.challenge) c from rfl, hkey,
        mapGet_set_self]
  · intro _
    unfold getAndDeleteChallengeByValue
    rw [show (saveChallenge s c).challengesByValue
          = mapSet s.challengesByValue c.challenge c from rfl,
        mapGet_set_self]

/-- C2 witness: the amended behavior at a concrete anonymous challenge. -/
theorem saveChallenge_key_spec_witness :
    (getAndDeleteChallengeByValue (saveChallenge emptyStorage anonChallenge) "c1").1 =
      some anonChallenge :=
  (saveChallenge_key_spec emptyStorage anonChallenge).2.2 rfl

/-- C4: the returned userId is not stable across registrations for the same
username — generateRegistrationOptions mints a fresh identifier even when
the username already has an identity, so the second registration's verify
returns the second minted id r2 while the stored identity keeps r1. -/
theorem second_registration_returns_fresh_userId :
    aFirstReg.1 = .ok { verified := true, userId := "r1", credentialId := "cidA1" } ∧
    aSecondReg.1 = .ok { verified := true, userId := "r2", credentialId := "cidA2" } ∧
    (getUserByUsername aSecondReg.2 "a@x.com").map (fun u => u.userId) = some "r1" ∧
    "r2" ≠ "r1" := by
  decide

/-- C5 counterexample: updateCredentialCounter overwrites the stored
counter unconditionally — called with 3 on a credential whose stored
counter is 9, the stored counter afterwards is 3, strictly below the value
previously recorded. -/
theorem updateCredentialCounter_regresses :
    credCounter counterState "cidC" = some 9 ∧
    (updateCredentialCounter counterState 1 "cidC" 3).1 = .ok () ∧
    credCounter (updateCredentialCounter counterState 1 "cidC" 3).2 "cidC" = some 3 ∧
    ¬ (3 : Nat) ≥ 9 := by
  decide

/-- C5 (amended): updateCredentialCounter stores exactly the supplied
counter value whenever it succeeds, whether or not that value is below the
previously stored one; regression rejection is delegated to the external
verifier. -/
theorem updateCredentialCounter_stores_argument (s : MemoryStorage) (now : Nat)
    (cid : String) (ctr : Nat)
    (h : (updateCredentialCounter s now cid ctr).1 = .ok ()) :
    credCounter (updateCredentialCounter s now cid ctr).2 cid = some ctr := by
  unfold updateCredentialCounter at h ⊢
  cases hidx : mapGet s.credentialIndex cid with
  | none => simp only [hidx] at h; simp at h
  | some un =>
      simp only [hidx] at h ⊢
      by_cases hun : un = ""
      · simp [hun] at h
      · simp only [if_neg hun] at h ⊢
        cases huser : mapGet s.users un with
        | none => simp only [huser] at h; simp at h
        | some user =>
            simp only [huser] at h ⊢
            cases hfind : user.credentials.find? (fun c => c.id = cid) with
            | none => simp only [hfind] at h; simp at h
            | some c0 =>
                simp only [hfind]
                unfold credCounter getUserByCredentialId
                simp only [hidx, if_neg hun, mapGet_set_self]
                simp [setCounterFirst_find user.credentials cid ctr c0 hfind]

/-- C5 amended witness: at the concrete regressing input the stored
counter equals the argument 3. -/
theorem updateCredentialCounter_stores_argument_witness :
    credCounter (updateCredentialCounter counterState 1 "cidC" 3).2 "cidC" = some 3 :=
  updateCredentialCounter_stores_argument counterState 1 "cidC" 3 (by decide)

/-- C6 counterexample: after chalA is replaced by chalB under the same key
u, chalA is still returned by getAndDeleteChallengeByValue on its value —
the replacement is not permanent with respect to the by-value index. -/
theorem replaced_challenge_retrievable_by_value :
    (getAndDeleteChallengeByValue (saveChallenge (saveChallenge emptyStorage chalA) chalB)
        "A").1 = some chalA := by
  decide

/-- C6 (amended): a second saveChallenge under the same lookup key
overwrites the by-key entry, so only the newer challenge is returned by
getAndDeleteChallenge on that key (at most one outstanding challenge per
key in the by-key map); but when the two challenge values differ the older
challenge remains retrievable through getAndDeleteChallengeByValue. -/
theorem saveChallenge_overwrite (s : MemoryStorage) (c1 c2 : Challenge)
    (hkey : jsOrStr c1.username c1.challenge = jsOrStr c2.username c2.challenge) :
    (getAndDeleteChallenge (saveChallenge (saveChallenge s c1) c2)
        (jsOrStr c2.username c2.challenge)).1 = some c2 ∧
    (c1.challenge ≠ c2.challenge →
      (getAndDeleteChallengeByValue (saveChallenge (saveChallenge s c1) c2)
          c1.challenge).1 = some c1) := by
  constructor
  · unfold getAndDeleteChallenge
    rw [show (saveChallenge (saveChallenge s c1) c2).challenges
          = mapSet (mapSet s.challenges (jsOrStr c1.username c1.challenge) c1)
              (jsOrStr c2.username c2.challenge) c2 from rfl,
        mapGet_set_self]
  · intro hne
    unfold getAndDeleteChallengeByValue
    rw [show (saveChallenge (saveChallenge s c1) c2).challengesByValue
          = mapSet (mapSet s.challengesByValue c1.challenge c1) c2.challenge c2 from rfl,
        mapGet_set_ne _ _ _ _ hne, mapGet_set_self]

/-- C3: consuming a challenge is destructive — after a successful
getAndDeleteChallenge on a key, a second getAndDeleteChallenge on the same
key finds nothing, and a verifyAuthentication call using that key fails
with the challenge-not-found error. -/
theorem challenge_single_use (s : MemoryStorage) (u : String) (c : Challenge)
    (s' : MemoryStorage) (hw : (mapKeys s.challenges).Nodup)
    (h : getAndDeleteChallenge s u = (some c, s')) :
    (getAndDeleteChallenge s' u).1 = none ∧
    ∀ (now newCounter : Nat) (respId : String) (authOk : Bool),
      (svcVerifyAuthentication s' now u respId authOk newCounter).1 =
        .error "Challenge not found or expired" := by
  unfold getAndDeleteChallenge at h
  cases hget : mapGet s.challenges u with
  | none => simp only [hget] at h; simp at h
  | some c2 =>
      simp only [hget] at h
      have hnone : mapGet s'.challenges u = none := by
        have hs := congrArg Prod.snd h
        simp only at hs
        rw [← hs]
        exact mapGet_delete_self s.challenges u hw
      refine ⟨?_, ?_⟩
      · simp [getAndDeleteChallenge, hnone]
      · intro now newCounter respId authOk
        simp [svcVerifyAuthentication, getAndDeleteChallenge, jsOrStr_empty_right, hnone]

/-- C3 witness: the concrete single-challenge state for key u9. -/
theorem challenge_single_use_witness :
    (getAndDeleteChallenge emptyStorage "u9").1 = none ∧
    (svcVerifyAuthentication emptyStorage 5 "u9" "cidZ" true 7).1 =
      .error "Challenge not found or expired" :=
  ⟨(challenge_single_use uState "u9" uChal emptyStorage (by decide) (by decide)).1,
   (challenge_single_use uState "u9" uChal emptyStorage (by decide) (by decide)).2
     5 7 "cidZ" true⟩

/-- C7: verifyRegistration, when the ceremony's challenge is found, the
verifier succeeds and the username has no stored identity, creates the new
identity with the userId recorded on the consumed challenge and returns
verified with that userId and the extracted credential id; when an identity
already exists the credential is appended through addCredential instead. -/
theorem verifyRegistration_uses_challenge_userId
    (s s₁ : MemoryStorage) (now : Nat) (username : String) (ch : Challenge)
    (vr : RegVerifierResult) (info : RegInfo) (tr : Option (List String))
    (hch : getAndDeleteChallenge s username = (some ch, s₁))
    (hv : vr.verified = true) (hinfo : vr.registrationInfo = some info) :
    (getUserByUsername s₁ username = none →
      svcVerifyRegistration s now username vr tr =
        (.ok { verified := true, userId := ch.userId, credentialId := info.credentialID },
         saveUser s₁
           { userId := ch.userId, username := username, displayName := username,
             credentials := [{ id := info.credentialID,
                               publicKey := info.credentialPublicKey,
                               counter := info.counter, transports := tr,
                               createdAt := now }],
             createdAt := now, updatedAt := now }) ∧
      (getUserByUsername (svcVerifyRegistration s now username vr tr).2 username).map
          (fun u => u.userId) = some ch.userId) ∧
    (∀ u, getUserByUsername s₁ username = some u →
      svcVerifyRegistration s now username vr tr =
        (.ok { verified := true, userId := ch.userId, credentialId := info.credentialID },
         (addCredential s₁ now username
           { id := info.credentialID, publicKey := info.credentialPublicKey,
             counter := info.counter, transports := tr, createdAt := now }).2)) := by
  unfold svcVerifyRegistration
  simp only [hch, hv, hinfo]
  constructor
  · intro hnone
    constructor
    · simp only [hnone]
    · simp only [hnone]
      unfold getUserByUsername saveUser
      simp [mapGet_set_self]
  · intro u hu
    simp only [hu]
    have hu' : mapGet s₁.users username = some u := hu
    unfold addCredential
    simp only [hu']

/-- C7 witness: the fresh-username branch at the concrete wState. -/
theorem verifyRegistration_uses_challenge_userId_witness :
    svcVerifyRegistration wState 1 "w@x.com" wVerdict none =
      (.ok { verified := true, userId := "uidW", credentialId := "cidW" },
       saveUser emptyStorage
         { userId := "uidW", username := "w@x.com", displayName := "w@x.com",
           credentials := [{ id := "cidW", publicKey := "pkW", counter := 7,
                             transports := none, createdAt := 1 }],
           createdAt := 1, updatedAt := 1 }) ∧
    (getUserByUsername (svcVerifyRegistration wState 1 "w@x.com" wVerdict none).2
        "w@x.com").map (fun u => u.userId) = some "uidW" :=
  (verifyRegistration_uses_challenge_userId wState emptyStorage 1 "w@x.com" wChal
    wVerdict wInfo none (by decide) rfl rfl).1 (by decide)

theorem mapGet_filter_none {α : Type} (p : String × α → Bool) (m : List (String × α))
    (k : String) (h : mapGet m k = none) : mapGet (m.filter p) k = none := by
  induction m with
  | nil => simp [mapGet]
  | cons hd tl ih =>
      obtain ⟨k₀, v₀⟩ := hd
      by_cases hk : k₀ = k
      · simp [mapGet, hk] at h
      · have htl : mapGet tl k = none := by simpa [mapGet, hk] using h
        cases hp : p (k₀, v₀) <;> simp [List.filter_cons, hp, mapGet, hk, ih htl]

theorem mapGet_filter {α : Type} (p : String × α → Bool) (m : List (String × α))
    (k : String) (v : α) (hw : (mapKeys m).Nodup) (h : mapGet m k = some v) :
    mapGet (m.filter p) k = if p (k, v) then some v else none := by
  induction m with
  | nil => simp [mapGet] at h
  | cons hd tl ih =>
      obtain ⟨k₀, v₀⟩ := hd
      simp only [mapKeys, List.map_cons, List.nodup_cons] at hw
      by_cases hk : k₀ = k
      · subst hk
        have hv : v₀ = v := by simpa [mapGet] using h
        subst hv
        have htl : mapGet tl k₀ = none := mapGet_eq_none_of_not_mem tl k₀ hw.1
        cases hp : p (k₀, v₀) <;>
          simp [List.filter_cons, hp, mapGet, mapGet_filter_none p tl k₀ htl]
      · have htl : mapGet tl k = some v := by simpa [mapGet, hk] using h
        cases hp : p (k₀, v₀) <;>
          simp [List.filter_cons, hp, mapGet, hk, ih hw.2 htl]

/-- C9: the expiry sweep removes exactly the challenges whose expiresAt is
strictly before the sweep time — afterwards getAndDeleteChallenge on the
stored key finds nothing when the challenge had expired and still returns
the challenge otherwise. -/
theorem cleanup_removes_exactly_expired (s : MemoryStorage) (now : Nat)
    (k : String) (c : Challenge) (hw : (mapKeys s.challenges).Nodup)
    (h : mapGet s.challenges k = some c) :
    (c.expiresAt < now →
      (getAndDeleteChallenge (cleanupExpiredChallenges s now) k).1 = none) ∧
    (¬ c.expiresAt < now →
      (getAndDeleteChallenge (cleanupExpiredChallenges s now) k).1 = some c) := by
  constructor <;> intro hexp <;>
    · unfold getAndDeleteChallenge cleanupExpiredChallenges
      rw [mapGet_filter _ _ _ _ hw h]
      simp [hexp]

/-- C9 witness: sweep at time 150 over pChal (expires 100) and qChal
(expires 200). -/
theorem cleanup_removes_exactly_expired_witness :
    (getAndDeleteChallenge (cleanupExpiredChallenges pqState 150) "p").1 = none ∧
    (getAndDeleteChallenge (cleanupExpiredChallenges pqState 150) "q").1 = some qChal :=
  ⟨(cleanup_removes_exactly_expired pqState 150 "p" pChal (by decide) (by decide)).1
     (by decide),
   (cleanup_removes_exactly_expired pqState 150 "q" qChal (by decide) (by decide)).2
     (by decide)⟩

/-- C6 amended witness: at the concrete pair chalA, chalB sharing key u. -/
theorem saveChallenge_overwrite_witness :
    (getAndDeleteChallenge (saveChallenge (saveChallenge emptyStorage chalA) chalB)
        "u").1 = some chalB ∧
    (getAndDeleteChallengeByValue (saveChallenge (saveChallenge emptyStorage chalA) chalB)
        "A").1 = some chalA :=
  ⟨(saveChallenge_overwrite emptyStorage chalA chalB rfl).1,
   (saveChallenge_overwrite emptyStorage chalA chalB rfl).2 (by decide)⟩

end Passkey
